import Mathlib

/-!
Verification development for the plan-loop repository (packages/core).

The TypeScript core (src/packages/core/src/{state,tools,schema}.ts) is a
session state machine persisted one-JSON-file-per-session.  We shallowly
embed it:

* machine numbers that the Zod schema constrains to non-negative integers
  (`version`, `iteration`, `maxIterations`, plan versions) are `Nat`;
  the raw `plan_version` tool input, which is only checked to be an
  integer at runtime, is modelled as a `JsNum` (an integer or a marker
  for a non-integer JS number);
* the filesystem is a list of `(filename-key, record)` pairs keyed by the
  canonical lowercase session id; JSON serialization round-trips plain
  records (strings / numbers / arrays) so file contents are modelled as
  the structured record itself;
* thrown exceptions are `Except.error`, tool-level error responses
  (`errorResponse` / `isError: true`) are `ToolResult.error`;
* `String.prototype.toLowerCase` is modelled as the per-character ASCII
  lowercasing `Char.toLower` (only ASCII matters for the UUID shape);
* fallible I/O syscalls are made explicit: `save` takes a `writeOk` flag
  (the `writeFileSync`/`renameSync` pair succeeding) and `remove` an
  `unlinkOk` flag (`unlinkSync` succeeding).
-/

namespace PlanLoop

/-- Session status (types.ts `SessionStatus`). -/
inductive SessionStatus
  | drafting
  | pending_review
  | pending_revision
  | approved
  | exhausted
  deriving DecidableEq

/-- Feedback rating (types.ts `Rating`): 🔴 / 🟡 / 🟢. -/
inductive Rating
  | red
  | yellow
  | green
  deriving DecidableEq

/-- Plan entry (types.ts `Plan`). -/
structure Plan where
  version : Nat
  content : String
  submittedAt : String
  deriving DecidableEq

/-- Feedback entry (types.ts `Feedback`). -/
structure Feedback where
  planVersion : Nat
  rating : Rating
  content : String
  submittedAt : String
  deriving DecidableEq

/-- Session record (types.ts `Session`). -/
structure Session where
  id : String
  goal : String
  status : SessionStatus
  version : Nat
  iteration : Nat
  maxIterations : Nat
  plans : List Plan
  feedbacks : List Feedback
  createdAt : String
  updatedAt : String
  deriving DecidableEq

def SessionStatus.toText : SessionStatus → String
  | .drafting => "drafting"
  | .pending_review => "pending_review"
  | .pending_revision => "pending_revision"
  | .approved => "approved"
  | .exhausted => "exhausted"

/-- tools.ts `isNonEmptyString` (the `typeof value === 'string'` part holds
by type): `value.trim() !== ''`, i.e. some character of `value` is not
whitespace. -/
def isNonEmptyString (value : String) : Bool :=
  value.data.any (fun c => !c.isWhitespace)

/-! ## Identifier Validator (state.ts) -/

/-- state.ts `normalizeSessionId`: lowercases the id (the `null` branch for
non-string input is unrepresentable here). -/
def normalizeSessionId (id : String) : String :=
  String.mk (id.data.map Char.toLower)

/-- One character of the UUID_V4_REGEX
`^[0-9a-f]\x7b8\x7d-[0-9a-f]\x7b4\x7d-4[0-9a-f]\x7b3\x7d-[89ab][0-9a-f]\x7b3\x7d-[0-9a-f]\x7b12\x7d$`
at 0-based position `i`: dashes at 8/13/18/23, version nibble `4` at 14,
variant nibble in `89ab` at 19, lowercase hex elsewhere. -/
def uuidV4CharOk (i : Nat) (c : Char) : Bool :=
  if i = 8 ∨ i = 13 ∨ i = 18 ∨ i = 23 then c = '-'
  else if i = 14 then c = '4'
  else if i = 19 then c = '8' ∨ c = '9' ∨ c = 'a' ∨ c = 'b'
  else (48 ≤ c.toNat ∧ c.toNat ≤ 57) ∨ (97 ≤ c.toNat ∧ c.toNat ≤ 102)

def uuidV4CharsOk : Nat → List Char → Bool
  | _, [] => true
  | i, c :: rest => uuidV4CharOk i c && uuidV4CharsOk (i + 1) rest

/-- state.ts `isValidSessionId`: the id matches the (lowercase-only)
UUID v4 regex. -/
def isValidSessionId (id : String) : Bool :=
  id.data.length = 36 && uuidV4CharsOk 0 id.data

/-- state.ts `getSecureFilePath`, split: the normalize-and-validate part.
Returns the canonical id or `none`. -/
def secureId (id : String) : Option String :=
  if isValidSessionId (normalizeSessionId id) then some (normalizeSessionId id)
  else none

/-- state.ts `getSecureFilePath`: the target path is
`stateDir/<normalizedId>.json`.  The additional `path.relative` check of
the source never fires for ids that passed the UUID shape check (their
characters exclude separators and dots — proved below), so it is not
re-modelled as a separate branch. -/
def getSecureFilePath (stateDir : String) (id : String) : Option (String × String) :=
  (secureId id).map (fun nid => (stateDir ++ "/" ++ nid ++ ".json", nid))

/-! ## Session Schema Validator (schema.ts)

The Zod `SessionSchema` constraints that are not already enforced by the
Lean types (`Nat` fields are non-negative integers, `status` / `rating`
are in their enums by construction) are: `id` is a UUID, `goal` is
non-empty, `maxIterations` is positive. -/

/-- One character of Zod's case-insensitive 8-4-4-4-12 hex UUID pattern
(`z.string().uuid()`). -/
def zodUuidCharOk (i : Nat) (c : Char) : Bool :=
  if i = 8 ∨ i = 13 ∨ i = 18 ∨ i = 23 then c = '-'
  else (48 ≤ c.toNat ∧ c.toNat ≤ 57) ∨ (97 ≤ c.toNat ∧ c.toNat ≤ 102) ∨
    (65 ≤ c.toNat ∧ c.toNat ≤ 70)

def zodUuidCharsOk : Nat → List Char → Bool
  | _, [] => true
  | i, c :: rest => zodUuidCharOk i c && zodUuidCharsOk (i + 1) rest

def zodUuid (s : String) : Bool :=
  s.data.length = 36 && zodUuidCharsOk 0 s.data

/-- schema.ts `SessionSchema.safeParse` succeeding on a structurally
well-typed record. -/
def schemaValid (s : Session) : Bool :=
  zodUuid s.id && 1 ≤ s.goal.length && 1 ≤ s.maxIterations

/-! ## Session Store (state.ts) -/

/-- The state directory as a keyed map: filename stem (the canonical
lowercase id) to the record the file holds. -/
abbrev FileStore := List (String × Session)

def lookupFile : FileStore → String → Option Session
  | [], _ => none
  | (k, v) :: rest, key => if k = key then some v else lookupFile rest key

def insertFile : FileStore → String → Session → FileStore
  | [], key, v => [(key, v)]
  | (k, w) :: rest, key, v =>
    if k = key then (key, v) :: rest else (k, w) :: insertFile rest key v

def eraseFile (st : FileStore) (key : String) : FileStore :=
  st.filter (fun kv => !(kv.1 = key))

/-- state.ts `save`: re-stamps `updatedAt`, throws (`Except.error`) on an
invalid id, normalizes `session.id` to the canonical lowercase form, and
atomically replaces the file.  `writeOk` models the write syscalls
succeeding; a failed write propagates as an exception.  Returns the new
store and the record as stored. -/
def save (writeOk : Bool) (st : FileStore) (session : Session) (now : String) :
    Except String (FileStore × Session) :=
  match secureId session.id with
  | none =>
    .error ("[plan-loop] Cannot save session with invalid id: " ++ session.id)
  | some normalizedId =>
    if writeOk then
      let stored := { session with id := normalizedId, updatedAt := now }
      .ok (insertFile st normalizedId stored, stored)
    else
      .error "EIO: write failed"

/-- state.ts `load`: validates the id (invalid id is indistinguishable
from absence), reads the file, schema-validates, and checks that the
record's own `id` matches the filename-derived canonical id. -/
def load (st : FileStore) (id : String) : Option Session :=
  match secureId id with
  | none => none
  | some normalizedId =>
    match lookupFile st normalizedId with
    | none => none
    | some data =>
      if schemaValid data then
        if data.id = normalizedId then some data else none
      else none

/-- state.ts `remove`: validates the id, returns `false` when the id is
invalid or the file is missing, and catches a failing `unlinkSync`
(modelled by `unlinkOk = false`) into `false` instead of throwing. -/
def remove (unlinkOk : Bool) (st : FileStore) (id : String) : FileStore × Bool :=
  match secureId id with
  | none => (st, false)
  | some normalizedId =>
    match lookupFile st normalizedId with
    | none => (st, false)
    | some _ =>
      if unlinkOk then (eraseFile st normalizedId, true) else (st, false)

/-- state.ts `create` (without the trailing `save`, which the tool layer
performs): a fresh session record.  `id` stands for the `randomUUID()`
result. -/
def create (id : String) (goal : String) (maxIterations : Nat) (now : String) :
    Session :=
  { id := id
    goal := goal
    status := .drafting
    version := 0
    iteration := 0
    maxIterations := maxIterations
    plans := []
    feedbacks := []
    createdAt := now
    updatedAt := now }

/-- state.ts `getLatestPlan`. -/
def getLatestPlan (session : Session) : Option Plan :=
  session.plans.getLast?

/-- state.ts `getLatestFeedback`. -/
def getLatestFeedback (session : Session) : Option Feedback :=
  session.feedbacks.getLast?

/-! ## Tool layer (tools.ts)

Each tool takes the current store plus the ambient effects the source
draws on (`new Date().toISOString()` as `now`, `randomUUID()` as
`freshId`) and returns the possibly-updated store together with the
structured response.  `ToolResult.error` is `errorResponse` (an
`isError: true` response); success payloads mirror the JSON the source
serializes. -/

inductive ToolResult (α : Type)
  | error (message : String)
  | ok (data : α)
  deriving DecidableEq

/-- types.ts `PendingReason`. -/
inductive PendingReason
  | no_plan_submitted
  | no_feedback_yet
  | awaiting_feedback
  deriving DecidableEq

/-- types.ts `Response<T>`: ready-with-data or pending-with-reason. -/
inductive QueryData (α : Type)
  | pending (reason : PendingReason)
  | ready (data : α)
  deriving DecidableEq

/-- A raw JS number as supplied for `plan_version` / `maxIterations`: an
integer or some non-integer number. -/
inductive JsNum
  | intVal (v : Int)
  | nonInt
  deriving DecidableEq

/-- tools.ts `plFeedback`'s `validRatings.includes(rating)` check together
with the symbol's meaning. -/
def parseRating (r : String) : Option Rating :=
  if r = "🔴" then some .red
  else if r = "🟡" then some .yellow
  else if r = "🟢" then some .green
  else none

/-- tools.ts `plStart`.  `freshId` is the `randomUUID()` the embedded
`state.create` call draws; `maxIterations` is the raw input (defaulted to
5 when absent). -/
def plStart (st : FileStore) (freshId : String) (now : String)
    (goal : String) (maxIterations : Option JsNum) :
    FileStore × ToolResult String :=
  if !isNonEmptyString goal then
    (st, .error "goal is required")
  else
    match maxIterations.getD (.intVal 5) with
    | .nonInt => (st, .error "maxIterations must be a positive integer")
    | .intVal m =>
      if m < 1 then (st, .error "maxIterations must be a positive integer")
      else
        match save true st (create freshId goal m.toNat now) now with
        | .ok (st', stored) => (st', .ok stored.id)
        | .error e => (st, .error e)

structure PlSubmitInput where
  session_id : String
  plan : String
  deriving DecidableEq

/-- The in-memory mutation `plSubmit` performs before saving: increment
`version`, append the plan with the new version, move to
`pending_review`. -/
def submitSession (session : Session) (plan now : String) : Session :=
  { session with
    version := session.version + 1
    plans := session.plans ++
      [({ version := session.version + 1, content := plan,
          submittedAt := now } : Plan)]
    status := .pending_review }

/-- tools.ts `plSubmit`. -/
def plSubmit (st : FileStore) (now : String) (input : PlSubmitInput) :
    FileStore × ToolResult (Nat × SessionStatus) :=
  if !isNonEmptyString input.session_id then
    (st, .error "session_id is required")
  else
    match load st input.session_id with
    | none => (st, .error ("Session not found: " ++ input.session_id))
    | some session =>
      if ¬(session.status = .drafting ∨ session.status = .pending_revision) then
        (st, .error ("Invalid state: current=\x27" ++ session.status.toText ++
          "\x27, expected=[\"drafting\",\"pending_revision\"]"))
      else if !isNonEmptyString input.plan then
        (st, .error "plan is required")
      else
        match save true st (submitSession session input.plan now) now with
        | .ok (st', stored) => (st', .ok (stored.version, stored.status))
        | .error e => (st, .error e)

structure PlFeedbackInput where
  session_id : String
  rating : String
  content : String
  plan_version : Option JsNum
  deriving DecidableEq

/-- The in-memory mutation `plFeedback` performs before saving: append the
feedback against the latest plan, then update status (and, for a
non-approval rating, iteration) from the rating. -/
def feedbackSession (session : Session) (rating : Rating) (content : String)
    (latestPlan : Plan) (now : String) : Session :=
  if rating = .green then
    { session with
      feedbacks := session.feedbacks ++
        [({ planVersion := latestPlan.version, rating := rating,
            content := content, submittedAt := now } : Feedback)]
      status := .approved }
  else if session.iteration + 1 ≥ session.maxIterations then
    { session with
      feedbacks := session.feedbacks ++
        [({ planVersion := latestPlan.version, rating := rating,
            content := content, submittedAt := now } : Feedback)]
      iteration := session.iteration + 1
      status := .exhausted }
  else
    { session with
      feedbacks := session.feedbacks ++
        [({ planVersion := latestPlan.version, rating := rating,
            content := content, submittedAt := now } : Feedback)]
      iteration := session.iteration + 1
      status := .pending_revision }

/-- The shared tail of `plFeedback` (reached either when `plan_version`
was omitted or when it matched): mutate and save. -/
def applyFeedback (st : FileStore) (session : Session) (rating : Rating)
    (content : String) (latestPlan : Plan) (now : String) :
    FileStore × ToolResult (SessionStatus × Nat) :=
  match save true st (feedbackSession session rating content latestPlan now) now with
  | .ok (st', stored) => (st', .ok (stored.status, stored.iteration))
  | .error e => (st, .error e)

/-- tools.ts `plFeedback`. -/
def plFeedback (st : FileStore) (now : String) (input : PlFeedbackInput) :
    FileStore × ToolResult (SessionStatus × Nat) :=
  if !isNonEmptyString input.session_id then
    (st, .error "session_id is required")
  else
    match load st input.session_id with
    | none => (st, .error ("Session not found: " ++ input.session_id))
    | some session =>
      if session.status ≠ .pending_review then
        (st, .error ("Invalid state: current=\x27" ++ session.status.toText ++
          "\x27, expected=[\x27pending_review\x27]"))
      else
        match parseRating input.rating with
        | none =>
          (st, .error ("Invalid rating: " ++ input.rating ++
            ", expected one of [\"🔴\",\"🟡\",\"🟢\"]"))
        | some rating =>
          if !isNonEmptyString input.content then
            (st, .error "content is required")
          else
            match getLatestPlan session with
            | none => (st, .error "No plan to provide feedback on")
            | some latestPlan =>
              match input.plan_version with
              | some .nonInt => (st, .error "plan_version must be an integer")
              | some (.intVal v) =>
                if v = (latestPlan.version : Int) then
                  applyFeedback st session rating input.content latestPlan now
                else
                  (st, .error ("Plan version mismatch: expected=" ++
                    toString latestPlan.version ++ ", provided=" ++ toString v ++
                    ". Another agent may have submitted a new plan."))
              | none =>
                applyFeedback st session rating input.content latestPlan now

/-- tools.ts `plGetFeedback`.  The source performs no write: the store is
returned unchanged. -/
def plGetFeedback (st : FileStore) (session_id : String) :
    FileStore × ToolResult (QueryData Feedback) :=
  if !isNonEmptyString session_id then
    (st, .error "session_id is required")
  else
    match load st session_id with
    | none => (st, .error ("Session not found: " ++ session_id))
    | some session =>
      match getLatestPlan session with
      | none => (st, .ok (.pending .no_plan_submitted))
      | some latestPlan =>
        match getLatestFeedback session with
        | none =>
          (st, .ok (.pending (if session.status = .pending_review then
            .awaiting_feedback else .no_feedback_yet)))
        | some latestFeedback =>
          if latestFeedback.planVersion < latestPlan.version then
            (st, .ok (.pending (if session.status = .pending_review then
              .awaiting_feedback else .no_feedback_yet)))
          else
            (st, .ok (.ready latestFeedback))

structure PlForceApproveInput where
  session_id : String
  reason : String
  deriving DecidableEq

/-- The in-memory mutation `plForceApprove` performs before saving: append
the synthetic approval feedback (against the latest plan's version,
falling back to `session.version` when no plan exists) and approve. -/
def forceApproveSession (session : Session) (reason now : String) : Session :=
  { session with
    feedbacks := session.feedbacks ++
      [({ planVersion :=
            (((getLatestPlan session).map Plan.version).getD session.version),
          rating := .green,
          content := "[FORCE APPROVED] " ++ reason,
          submittedAt := now } : Feedback)]
    status := .approved }

/-- tools.ts `plForceApprove`. -/
def plForceApprove (st : FileStore) (now : String) (input : PlForceApproveInput) :
    FileStore × ToolResult SessionStatus :=
  if !isNonEmptyString input.session_id then
    (st, .error "session_id is required")
  else
    match load st input.session_id with
    | none => (st, .error ("Session not found: " ++ input.session_id))
    | some session =>
      if session.status ≠ .exhausted then
        (st, .error ("Invalid state: current=\x27" ++ session.status.toText ++
          "\x27, expected=[\x27exhausted\x27]"))
      else if !isNonEmptyString input.reason then
        (st, .error "reason is required")
      else
        match save true st (forceApproveSession session input.reason now) now with
        | .ok (st', _) => (st', .ok .approved)
        | .error e => (st, .error e)

structure PlDeleteInput where
  session_id : String
  force : Bool
  deriving DecidableEq

/-- tools.ts `plDelete`. -/
def plDelete (unlinkOk : Bool) (st : FileStore) (input : PlDeleteInput) :
    FileStore × ToolResult (Bool × String) :=
  if !isNonEmptyString input.session_id then
    (st, .error "session_id is required")
  else
    match load st input.session_id with
    | none => (st, .error ("Session not found: " ++ input.session_id))
    | some session =>
      if ¬(session.status = .approved ∨ session.status = .exhausted) ∧
          input.force = false then
        (st, .error ("Cannot delete active session (status=\x27" ++
          session.status.toText ++ "\x27). Use force=true to override"))
      else
        match remove unlinkOk st input.session_id with
        | (st', false) =>
          (st', .error ("Failed to delete session: " ++ input.session_id))
        | (st', true) => (st', .ok (true, input.session_id))

/-! ## Store lemmas -/

theorem lookupFile_insertFile (st : FileStore) (k : String) (v : Session)
    (key : String) :
    lookupFile (insertFile st k v) key =
      if k = key then some v else lookupFile st key := by
  induction st with
  | nil => simp [insertFile, lookupFile]
  | cons kv rest ih =>
    obtain ⟨k', v'⟩ := kv
    by_cases hk : k' = k
    · subst hk
      simp only [insertFile, if_pos rfl, lookupFile]
      by_cases hkey : k' = key <;> simp [hkey, lookupFile]
    · simp only [insertFile, if_neg hk, lookupFile]
      by_cases hkey : k' = key
      · subst hkey
        have : ¬k = k' := fun h => hk h.symm
        simp [lookupFile, this]
      · simp [lookupFile, hkey, ih]

theorem lookupFile_eraseFile (st : FileStore) (k : String) (key : String) :
    lookupFile (eraseFile st k) key =
      if k = key then none else lookupFile st key := by
  induction st with
  | nil => by_cases h : k = key <;> simp [eraseFile, lookupFile, h]
  | cons kv rest ih =>
    obtain ⟨k', v'⟩ := kv
    simp only [eraseFile, List.filter_cons] at ih ⊢
    by_cases h1 : k' = k
    · subst h1
      rw [if_neg (by simp)]
      rw [ih]
      by_cases hkey : k' = key
      · subst hkey
        rw [if_pos rfl, if_pos rfl]
      · rw [if_neg hkey, if_neg hkey]
        simp [lookupFile, hkey]
    · rw [if_pos (by simp [h1])]
      by_cases hkey : k' = key
      · subst hkey
        have hne : ¬k = k' := fun h => h1 h.symm
        simp [lookupFile, hne]
      · simp [lookupFile, hkey, ih]

/-! ## Identifier-validator lemmas -/

theorem uuidV4CharOk_toNat (i : Nat) (c : Char) (h : uuidV4CharOk i c = true) :
    c.toNat = 45 ∨ (48 ≤ c.toNat ∧ c.toNat ≤ 57) ∨
      (97 ≤ c.toNat ∧ c.toNat ≤ 102) := by
  unfold uuidV4CharOk at h
  split at h
  · left
    have : c = '-' := by simpa using h
    subst this; decide
  · split at h
    · have : c = '4' := by simpa using h
      subst this; right; left; decide
    · split at h
      · have : c = '8' ∨ c = '9' ∨ c = 'a' ∨ c = 'b' := by simpa using h
        rcases this with rfl | rfl | rfl | rfl <;> decide
      · right
        simpa using h

theorem uuidV4CharOk_toLower (i : Nat) (c : Char) (h : uuidV4CharOk i c = true) :
    c.toLower = c := by
  have hn := uuidV4CharOk_toNat i c h
  unfold Char.toLower
  show (if c.toNat ≥ 65 ∧ c.toNat ≤ 90 then Char.ofNat (c.toNat + 32) else c) = c
  rw [if_neg]
  omega

theorem uuidV4CharsOk_toLower (l : List Char) :
    ∀ i, uuidV4CharsOk i l = true → l.map Char.toLower = l := by
  induction l with
  | nil => intro i _; rfl
  | cons c rest ih =>
    intro i h
    unfold uuidV4CharsOk at h
    rw [Bool.and_eq_true] at h
    simp only [List.map_cons]
    rw [uuidV4CharOk_toLower i c h.1, ih (i + 1) h.2]

theorem uuidV4CharOk_zod (i : Nat) (c : Char) (h : uuidV4CharOk i c = true) :
    zodUuidCharOk i c = true := by
  unfold zodUuidCharOk
  unfold uuidV4CharOk at h
  split
  · rw [if_pos (by assumption)] at h
    exact h
  · rw [if_neg (by assumption)] at h
    have hn : (48 ≤ c.toNat ∧ c.toNat ≤ 57) ∨ (97 ≤ c.toNat ∧ c.toNat ≤ 102) := by
      split at h
      · have : c = '4' := by simpa using h
        subst this; left; decide
      · split at h
        · have : c = '8' ∨ c = '9' ∨ c = 'a' ∨ c = 'b' := by simpa using h
          rcases this with rfl | rfl | rfl | rfl <;> first | (left; decide) | (right; decide)
        · simpa using h
    simp only [decide_eq_true_eq]
    tauto

theorem uuidV4CharsOk_zod (l : List Char) :
    ∀ i, uuidV4CharsOk i l = true → zodUuidCharsOk i l = true := by
  induction l with
  | nil => intro i _; rfl
  | cons c rest ih =>
    intro i h
    unfold uuidV4CharsOk at h
    rw [Bool.and_eq_true] at h
    unfold zodUuidCharsOk
    rw [Bool.and_eq_true]
    exact ⟨uuidV4CharOk_zod i c h.1, ih (i + 1) h.2⟩

theorem uuidV4CharsOk_safe (l : List Char) :
    ∀ i, uuidV4CharsOk i l = true →
      ∀ c ∈ l, c ≠ '/' ∧ c ≠ '\\' ∧ c ≠ '.' := by
  induction l with
  | nil => intro i _ c hc; cases hc
  | cons c₀ rest ih =>
    intro i h c hc
    unfold uuidV4CharsOk at h
    rw [Bool.and_eq_true] at h
    rw [List.mem_cons] at hc
    rcases hc with rfl | hc
    · have hn := uuidV4CharOk_toNat i c h.1
      refine ⟨?_, ?_, ?_⟩ <;> intro hEq <;> subst hEq <;> revert hn <;> decide
    · exact ih (i + 1) h.2 c hc

theorem isValidSessionId_elim (x : String) (h : isValidSessionId x = true) :
    x.data.length = 36 ∧ uuidV4CharsOk 0 x.data = true := by
  unfold isValidSessionId at h
  rw [Bool.and_eq_true] at h
  exact ⟨by simpa using h.1, h.2⟩

theorem normalizeSessionId_of_valid (x : String)
    (h : isValidSessionId x = true) : normalizeSessionId x = x := by
  obtain ⟨-, hchars⟩ := isValidSessionId_elim x h
  unfold normalizeSessionId
  rw [uuidV4CharsOk_toLower x.data 0 hchars]

theorem zodUuid_of_valid (x : String) (h : isValidSessionId x = true) :
    zodUuid x = true := by
  obtain ⟨hlen, hchars⟩ := isValidSessionId_elim x h
  unfold zodUuid
  rw [Bool.and_eq_true]
  exact ⟨by simpa using hlen, uuidV4CharsOk_zod x.data 0 hchars⟩

theorem secureId_of_valid (x : String) (h : isValidSessionId x = true) :
    secureId x = some x := by
  unfold secureId
  rw [normalizeSessionId_of_valid x h, if_pos h]

theorem secureId_eq_some (id nid : String) (h : secureId id = some nid) :
    nid = normalizeSessionId id ∧ isValidSessionId nid = true := by
  unfold secureId at h
  split at h
  · cases h
    constructor
    · rfl
    · assumption
  · cases h

theorem secureId_eq_none (id : String)
    (h : isValidSessionId (normalizeSessionId id) = false) :
    secureId id = none := by
  unfold secureId
  rw [if_neg]
  simp [h]

/-! ## Load / save elimination lemmas -/

theorem load_eq_some_elim (st : FileStore) (id : String) (s : Session)
    (h : load st id = some s) :
    secureId id = some s.id ∧ isValidSessionId s.id = true ∧
      lookupFile st s.id = some s ∧ schemaValid s = true := by
  unfold load at h
  split at h
  · cases h
  · rename_i nid hsec
    split at h
    · cases h
    · rename_i data hlk
      split at h
      · split at h
        · cases h
          rename_i hsv hid
          rw [← hid] at hsec hlk
          exact ⟨hsec, (secureId_eq_some id s.id hsec).2, hlk, hsv⟩
        · cases h
      · cases h

theorem save_true_eq (st : FileStore) (session : Session) (now : String)
    (nid : String) (h : secureId session.id = some nid) :
    save true st session now =
      .ok (insertFile st nid { session with id := nid, updatedAt := now },
           { session with id := nid, updatedAt := now }) := by
  unfold save
  rw [h]
  rfl

theorem save_none_eq (writeOk : Bool) (st : FileStore) (session : Session)
    (now : String) (h : secureId session.id = none) :
    save writeOk st session now =
      .error ("[plan-loop] Cannot save session with invalid id: " ++
        session.id) := by
  unfold save
  rw [h]

theorem save_true_of_valid (st : FileStore) (session : Session) (now : String)
    (h : isValidSessionId session.id = true) :
    save true st session now =
      .ok (insertFile st session.id { session with updatedAt := now },
           { session with updatedAt := now }) := by
  unfold save
  rw [secureId_of_valid session.id h]
  rfl

theorem save_err_of_invalid (writeOk : Bool) (st : FileStore)
    (session : Session) (now : String)
    (h : isValidSessionId (normalizeSessionId session.id) = false) :
    save writeOk st session now =
      .error ("[plan-loop] Cannot save session with invalid id: " ++
        session.id) := by
  unfold save
  rw [secureId_eq_none session.id h]

/-! ## The session invariant and reachability -/

/-- The data-model invariants of spec §3 that claims C2 and C3 assert:
iteration is capped, active statuses keep strict headroom, plans are
gapless 1-based versions with `version` equal to the plan count, and the
iteration cap is positive. -/
def SessionInv (s : Session) : Prop :=
  s.iteration ≤ s.maxIterations ∧
  ((s.status = .drafting ∨ s.status = .pending_review ∨
      s.status = .pending_revision) → s.iteration < s.maxIterations) ∧
  s.plans.length = s.version ∧
  (∀ i (hi : i < s.plans.length), s.plans[i].version = i + 1) ∧
  1 ≤ s.maxIterations

def StoreInv (st : FileStore) : Prop :=
  ∀ k s, lookupFile st k = some s → SessionInv s

theorem storeInv_insert (st : FileStore) (k : String) (v : Session)
    (hst : StoreInv st) (hv : SessionInv v) : StoreInv (insertFile st k v) := by
  intro k' s hlk
  rw [lookupFile_insertFile] at hlk
  split at hlk
  · cases hlk; exact hv
  · exact hst k' s hlk

theorem storeInv_erase (st : FileStore) (k : String) (hst : StoreInv st) :
    StoreInv (eraseFile st k) := by
  intro k' s hlk
  rw [lookupFile_eraseFile] at hlk
  split at hlk
  · cases hlk
  · exact hst k' s hlk

theorem load_inv (st : FileStore) (id : String) (s : Session)
    (hst : StoreInv st) (h : load st id = some s) : SessionInv s :=
  hst s.id s (load_eq_some_elim st id s h).2.2.1

/-- One mutating tool call (tools.ts), as invoked by the MCP server:
`freshId` models `randomUUID()` returning a fresh well-formed v4 id. -/
inductive StoreStep : FileStore → FileStore → Prop
  | start (st : FileStore) (freshId now goal : String)
      (maxIterations : Option JsNum)
      (hid : isValidSessionId freshId = true)
      (hfresh : lookupFile st freshId = none) :
      StoreStep st (plStart st freshId now goal maxIterations).1
  | submit (st : FileStore) (now : String) (input : PlSubmitInput) :
      StoreStep st (plSubmit st now input).1
  | feedback (st : FileStore) (now : String) (input : PlFeedbackInput) :
      StoreStep st (plFeedback st now input).1
  | forceApprove (st : FileStore) (now : String)
      (input : PlForceApproveInput) :
      StoreStep st (plForceApprove st now input).1
  | delete (unlinkOk : Bool) (st : FileStore) (input : PlDeleteInput) :
      StoreStep st (plDelete unlinkOk st input).1

/-- Stores reachable from an empty state directory through tool calls. -/
inductive ReachableStore : FileStore → Prop
  | nil : ReachableStore []
  | step (st st' : FileStore) (h : ReachableStore st)
      (hs : StoreStep st st') : ReachableStore st'

/-! ## Characterization of each mutating tool call

For each operation: either it failed and left the store untouched, or it
stored exactly the session described by the corresponding `...Result`
function. -/

/-- The record `plSubmit` persists on success. -/
def submitResult (s : Session) (plan now : String) : Session :=
  { s with version := s.version + 1
           plans := s.plans ++
             [({ version := s.version + 1, content := plan,
                 submittedAt := now } : Plan)]
           status := .pending_review
           updatedAt := now }

theorem plSubmit_cases (st : FileStore) (now : String) (input : PlSubmitInput) :
    ((plSubmit st now input).1 = st ∧
      ∃ m, (plSubmit st now input).2 = .error m) ∨
    ∃ s, load st input.session_id = some s ∧
      (s.status = .drafting ∨ s.status = .pending_revision) ∧
      isNonEmptyString input.plan = true ∧
      plSubmit st now input =
        (insertFile st s.id (submitResult s input.plan now),
         .ok (s.version + 1, .pending_review)) := by
  unfold plSubmit
  split
  · exact Or.inl ⟨rfl, _, rfl⟩
  · split
    · exact Or.inl ⟨rfl, _, rfl⟩
    · rename_i session hload
      split
      · exact Or.inl ⟨rfl, _, rfl⟩
      · rename_i hstates
        split
        · exact Or.inl ⟨rfl, _, rfl⟩
        · rename_i hplan
          right
          refine ⟨session, hload, not_not.mp hstates, by
            revert hplan; simp, ?_⟩
          have hvalid := (load_eq_some_elim st input.session_id session hload).2.1
          rw [save_true_of_valid st (submitSession session input.plan now) now
            hvalid]
          rfl

theorem plStart_cases (st : FileStore) (freshId now goal : String)
    (mi : Option JsNum) :
    ((plStart st freshId now goal mi).1 = st ∧
      ∃ m, (plStart st freshId now goal mi).2 = .error m) ∨
    ∃ m : Int, mi.getD (.intVal 5) = .intVal m ∧ 1 ≤ m ∧
      isNonEmptyString goal = true ∧
      isValidSessionId (normalizeSessionId freshId) = true ∧
      plStart st freshId now goal mi =
        (insertFile st (normalizeSessionId freshId)
          { create freshId goal m.toNat now with
              id := normalizeSessionId freshId },
         .ok (normalizeSessionId freshId)) := by
  unfold plStart
  split
  · exact Or.inl ⟨rfl, _, rfl⟩
  · rename_i hgoal
    split
    · rename_i hm
      exact Or.inl ⟨rfl, _, rfl⟩
    · rename_i m hm
      split
      · exact Or.inl ⟨rfl, _, rfl⟩
      · rename_i hlt
        by_cases hv : isValidSessionId (normalizeSessionId freshId) = true
        · have hsec : secureId (create freshId goal m.toNat now).id =
              some (normalizeSessionId freshId) := by
            show secureId freshId = some (normalizeSessionId freshId)
            unfold secureId
            rw [if_pos hv]
          rw [save_true_eq st (create freshId goal m.toNat now) now
            (normalizeSessionId freshId) hsec]
          right
          exact ⟨m, hm, by omega, by revert hgoal; simp, hv, rfl⟩
        · have hsec : secureId (create freshId goal m.toNat now).id = none := by
            show secureId freshId = none
            unfold secureId
            rw [if_neg hv]
          rw [save_none_eq true st (create freshId goal m.toNat now) now hsec]
          exact Or.inl ⟨rfl, _, rfl⟩

/-- The record `plFeedback` persists on success (the saved form of
`feedbackSession`, with `updatedAt` re-stamped by `save`). -/
def feedbackResult (s : Session) (r : Rating) (content : String) (lp : Plan)
    (now : String) : Session :=
  if r = .green then
    { s with
      feedbacks := s.feedbacks ++
        [({ planVersion := lp.version, rating := r, content := content,
            submittedAt := now } : Feedback)]
      status := .approved
      updatedAt := now }
  else if s.iteration + 1 ≥ s.maxIterations then
    { s with
      feedbacks := s.feedbacks ++
        [({ planVersion := lp.version, rating := r, content := content,
            submittedAt := now } : Feedback)]
      iteration := s.iteration + 1
      status := .exhausted
      updatedAt := now }
  else
    { s with
      feedbacks := s.feedbacks ++
        [({ planVersion := lp.version, rating := r, content := content,
            submittedAt := now } : Feedback)]
      iteration := s.iteration + 1
      status := .pending_revision
      updatedAt := now }

theorem feedbackSession_id (s : Session) (r : Rating) (content : String)
    (lp : Plan) (now : String) :
    (feedbackSession s r content lp now).id = s.id := by
  unfold feedbackSession
  split
  · rfl
  · split <;> rfl

theorem feedbackSession_stored (s : Session) (r : Rating) (content : String)
    (lp : Plan) (now : String) :
    ({ feedbackSession s r content lp now with
        id := s.id, updatedAt := now } : Session) =
      feedbackResult s r content lp now := by
  unfold feedbackSession feedbackResult
  by_cases h1 : r = .green
  · rw [if_pos h1, if_pos h1]
  · rw [if_neg h1, if_neg h1]
    by_cases h2 : s.iteration + 1 ≥ s.maxIterations
    · rw [if_pos h2, if_pos h2]
    · rw [if_neg h2, if_neg h2]

theorem applyFeedback_eq (st : FileStore) (s : Session) (r : Rating)
    (content : String) (lp : Plan) (now : String)
    (hvalid : isValidSessionId s.id = true) :
    applyFeedback st s r content lp now =
      (insertFile st s.id (feedbackResult s r content lp now),
       .ok ((feedbackResult s r content lp now).status,
            (feedbackResult s r content lp now).iteration)) := by
  have hsec : secureId (feedbackSession s r content lp now).id = some s.id := by
    rw [feedbackSession_id]
    exact secureId_of_valid s.id hvalid
  unfold applyFeedback
  rw [save_true_eq st (feedbackSession s r content lp now) now s.id hsec]
  rw [feedbackSession_stored]

theorem plFeedback_cases (st : FileStore) (now : String)
    (input : PlFeedbackInput) :
    ((plFeedback st now input).1 = st ∧
      ∃ m, (plFeedback st now input).2 = .error m) ∨
    ∃ s r lp, load st input.session_id = some s ∧
      s.status = .pending_review ∧
      parseRating input.rating = some r ∧
      isNonEmptyString input.content = true ∧
      getLatestPlan s = some lp ∧
      (input.plan_version = none ∨
        input.plan_version = some (.intVal lp.version)) ∧
      plFeedback st now input =
        (insertFile st s.id (feedbackResult s r input.content lp now),
         .ok ((feedbackResult s r input.content lp now).status,
              (feedbackResult s r input.content lp now).iteration)) := by
  unfold plFeedback
  split
  · exact Or.inl ⟨rfl, _, rfl⟩
  · split
    · exact Or.inl ⟨rfl, _, rfl⟩
    · rename_i session hload
      have hvalid := (load_eq_some_elim st input.session_id session hload).2.1
      split
      · exact Or.inl ⟨rfl, _, rfl⟩
      · rename_i hst
        rw [not_not] at hst
        split
        · exact Or.inl ⟨rfl, _, rfl⟩
        · rename_i rating hrating
          split
          · exact Or.inl ⟨rfl, _, rfl⟩
          · rename_i hcontent
            split
            · exact Or.inl ⟨rfl, _, rfl⟩
            · rename_i latestPlan hlp
              split
              · exact Or.inl ⟨rfl, _, rfl⟩
              · rename_i v heq
                split
                · rename_i hveq
                  right
                  refine ⟨session, rating, latestPlan, hload, hst, hrating,
                    by revert hcontent; simp, hlp, ?_, ?_⟩
                  · right
                    rename_i hveq
                    rw [heq, hveq]
                  · rw [applyFeedback_eq st session rating input.content
                      latestPlan now hvalid]
                · exact Or.inl ⟨rfl, _, rfl⟩
              · rename_i hnone
                right
                refine ⟨session, rating, latestPlan, hload, hst, hrating,
                  by revert hcontent; simp, hlp, Or.inl (by assumption), ?_⟩
                rw [applyFeedback_eq st session rating input.content
                  latestPlan now hvalid]

/-- The record `plForceApprove` persists on success. -/
def forceApproveResult (s : Session) (reason now : String) : Session :=
  { s with
    feedbacks := s.feedbacks ++
      [({ planVersion :=
            (((getLatestPlan s).map Plan.version).getD s.version),
          rating := .green,
          content := "[FORCE APPROVED] " ++ reason,
          submittedAt := now } : Feedback)]
    status := .approved
    updatedAt := now }

theorem plForceApprove_cases (st : FileStore) (now : String)
    (input : PlForceApproveInput) :
    ((plForceApprove st now input).1 = st ∧
      ∃ m, (plForceApprove st now input).2 = .error m) ∨
    ∃ s, load st input.session_id = some s ∧ s.status = .exhausted ∧
      isNonEmptyString input.reason = true ∧
      plForceApprove st now input =
        (insertFile st s.id (forceApproveResult s input.reason now),
         .ok .approved) := by
  unfold plForceApprove
  split
  · exact Or.inl ⟨rfl, _, rfl⟩
  · split
    · exact Or.inl ⟨rfl, _, rfl⟩
    · rename_i session hload
      have hvalid := (load_eq_some_elim st input.session_id session hload).2.1
      split
      · exact Or.inl ⟨rfl, _, rfl⟩
      · rename_i hst
        rw [not_not] at hst
        split
        · exact Or.inl ⟨rfl, _, rfl⟩
        · rename_i hreason
          right
          refine ⟨session, hload, hst, by revert hreason; simp, ?_⟩
          rw [save_true_of_valid st
            (forceApproveSession session input.reason now) now hvalid]
          rfl

theorem remove_eq_of_load (unlinkOk : Bool) (st : FileStore) (id : String)
    (s : Session) (h : load st id = some s) :
    remove unlinkOk st id =
      if unlinkOk then (eraseFile st s.id, true) else (st, false) := by
  obtain ⟨hsec, hval, hlk, hsv⟩ := load_eq_some_elim st id s h
  unfold remove
  simp only [hsec, hlk]

theorem plDelete_cases (unlinkOk : Bool) (st : FileStore)
    (input : PlDeleteInput) :
    (plDelete unlinkOk st input).1 = st ∨
    ∃ s, load st input.session_id = some s ∧
      (plDelete unlinkOk st input).1 = eraseFile st s.id := by
  unfold plDelete
  split
  · exact Or.inl rfl
  · split
    · exact Or.inl rfl
    · rename_i session hload
      split
      · exact Or.inl rfl
      · rw [remove_eq_of_load unlinkOk st input.session_id session hload]
        cases unlinkOk
        · exact Or.inl rfl
        · exact Or.inr ⟨session, hload, rfl⟩

/-! ## The invariant is preserved by every tool call -/

theorem sessionInv_create (freshId goal : String) (m : Int) (now : String)
    (nid : String) (hm : 1 ≤ m) :
    SessionInv { create freshId goal m.toNat now with id := nid } := by
  refine ⟨by simp [create], fun _ => by simp [create]; omega,
    by simp [create], ?_, by simp [create]; omega⟩
  intro i hi
  simp [create] at hi

theorem sessionInv_submit (s : Session) (plan now : String)
    (hinv : SessionInv s)
    (hst : s.status = .drafting ∨ s.status = .pending_revision) :
    SessionInv (submitResult s plan now) := by
  obtain ⟨h1, h2, h3, h4, h5⟩ := hinv
  have hlt : s.iteration < s.maxIterations := h2 (by tauto)
  refine ⟨by simpa [submitResult] using h1.trans (le_refl _), fun _ => by
    simpa [submitResult] using hlt, ?_, ?_, by simpa [submitResult] using h5⟩
  · simp [submitResult, h3]
  · intro i hi
    simp only [submitResult, List.length_append, List.length_cons,
      List.length_nil] at hi
    by_cases hcase : i < s.plans.length
    · have := h4 i hcase
      simp only [submitResult]
      rw [List.getElem_append_left hcase]
      exact this
    · have hie : i = s.plans.length := by omega
      simp only [submitResult]
      rw [List.getElem_append_right (by omega)]
      simp [hie, h3]

theorem feedbackResult_plans (s : Session) (r : Rating) (content : String)
    (lp : Plan) (now : String) :
    (feedbackResult s r content lp now).plans = s.plans := by
  unfold feedbackResult
  split
  · rfl
  · split <;> rfl

theorem sessionInv_feedback (s : Session) (r : Rating) (content : String)
    (lp : Plan) (now : String) (hinv : SessionInv s)
    (hst : s.status = .pending_review) :
    SessionInv (feedbackResult s r content lp now) := by
  obtain ⟨h1, h2, h3, h4, h5⟩ := hinv
  have hlt : s.iteration < s.maxIterations := h2 (by tauto)
  unfold feedbackResult
  split
  · exact ⟨h1, (by intro h; rcases h with h | h | h <;> cases h), h3, h4, h5⟩
  · rename_i hcap
    split
    · exact ⟨(show s.iteration + 1 ≤ s.maxIterations by omega),
        (by intro h; rcases h with h | h | h <;> cases h), h3, h4, h5⟩
    · rename_i hnocap
      exact ⟨(show s.iteration + 1 ≤ s.maxIterations by omega),
        fun _ => (show s.iteration + 1 < s.maxIterations by omega), h3, h4, h5⟩

theorem sessionInv_forceApprove (s : Session) (reason now : String)
    (hinv : SessionInv s) :
    SessionInv (forceApproveResult s reason now) := by
  obtain ⟨h1, h2, h3, h4, h5⟩ := hinv
  exact ⟨h1, (by intro h; rcases h with h | h | h <;> cases h), h3, h4, h5⟩

theorem storeStep_inv (st st' : FileStore) (h : StoreStep st st')
    (hst : StoreInv st) : StoreInv st' := by
  cases h with
  | start st freshId now goal mi hid hfresh =>
    rcases plStart_cases st freshId now goal mi with ⟨h1, -⟩ | ⟨m, hm, hlt, -, -, heq⟩
    · rw [h1]; exact hst
    · rw [heq]
      exact storeInv_insert st _ _ hst (sessionInv_create freshId goal m now _ hlt)
  | submit st now input =>
    rcases plSubmit_cases st now input with ⟨h1, -⟩ | ⟨s, hload, hstates, -, heq⟩
    · rw [h1]; exact hst
    · rw [heq]
      exact storeInv_insert st _ _ hst
        (sessionInv_submit s input.plan now (load_inv st _ s hst hload) hstates)
  | feedback st now input =>
    rcases plFeedback_cases st now input with
      ⟨h1, -⟩ | ⟨s, r, lp, hload, hstat, -, -, -, -, heq⟩
    · rw [h1]; exact hst
    · rw [heq]
      exact storeInv_insert st _ _ hst
        (sessionInv_feedback s r input.content lp now
          (load_inv st _ s hst hload) hstat)
  | forceApprove st now input =>
    rcases plForceApprove_cases st now input with
      ⟨h1, -⟩ | ⟨s, hload, hstat, -, heq⟩
    · rw [h1]; exact hst
    · rw [heq]
      exact storeInv_insert st _ _ hst
        (sessionInv_forceApprove s input.reason now (load_inv st _ s hst hload))
  | delete unlinkOk st input =>
    rcases plDelete_cases unlinkOk st input with h1 | ⟨s, -, h1⟩
    · rw [h1]; exact hst
    · rw [h1]
      exact storeInv_erase st _ hst

theorem reachable_inv (st : FileStore) (h : ReachableStore st) : StoreInv st := by
  induction h with
  | nil => intro k s hk; cases hk
  | step st st' _ hs ih => exact storeStep_inv st st' hs ih

/-! ## Frame property: no step rewrites or truncates an existing plan list -/

theorem forceApproveResult_plans (s : Session) (reason now : String) :
    (forceApproveResult s reason now).plans = s.plans := rfl

theorem storeStep_plans_prefix (st st' : FileStore) (h : StoreStep st st') :
    ∀ k s s', lookupFile st k = some s → lookupFile st' k = some s' →
      ∃ t, s'.plans = s.plans ++ t := by
  cases h with
  | start st freshId now goal mi hid hfresh =>
    intro k s s' hk hk'
    rcases plStart_cases st freshId now goal mi with ⟨h1, -⟩ | ⟨m, hm, hlt, -, hv, heq⟩
    · rw [h1, hk] at hk'
      cases hk'
      exact ⟨[], (List.append_nil _).symm⟩
    · rw [heq] at hk'
      rw [lookupFile_insertFile] at hk'
      rw [normalizeSessionId_of_valid freshId hid] at hk'
      split at hk'
      · rename_i hkey
        rw [hkey, hk] at hfresh
        cases hfresh
      · rw [hk] at hk'
        cases hk'
        exact ⟨[], (List.append_nil _).symm⟩
  | submit st now input =>
    intro k s s' hk hk'
    rcases plSubmit_cases st now input with ⟨h1, -⟩ | ⟨s₀, hload, hstates, -, heq⟩
    · rw [h1, hk] at hk'
      cases hk'
      exact ⟨[], (List.append_nil _).symm⟩
    · rw [heq] at hk'
      rw [lookupFile_insertFile] at hk'
      split at hk'
      · rename_i hkey
        cases hk'
        have hlk₀ := (load_eq_some_elim st input.session_id s₀ hload).2.2.1
        rw [hkey, hk] at hlk₀
        cases hlk₀
        exact ⟨_, rfl⟩
      · rw [hk] at hk'
        cases hk'
        exact ⟨[], (List.append_nil _).symm⟩
  | feedback st now input =>
    intro k s s' hk hk'
    rcases plFeedback_cases st now input with
      ⟨h1, -⟩ | ⟨s₀, r, lp, hload, -, -, -, -, -, heq⟩
    · rw [h1, hk] at hk'
      cases hk'
      exact ⟨[], (List.append_nil _).symm⟩
    · rw [heq] at hk'
      rw [lookupFile_insertFile] at hk'
      split at hk'
      · rename_i hkey
        cases hk'
        have hlk₀ := (load_eq_some_elim st input.session_id s₀ hload).2.2.1
        rw [hkey, hk] at hlk₀
        cases hlk₀
        exact ⟨[], by rw [feedbackResult_plans, List.append_nil]⟩
      · rw [hk] at hk'
        cases hk'
        exact ⟨[], (List.append_nil _).symm⟩
  | forceApprove st now input =>
    intro k s s' hk hk'
    rcases plForceApprove_cases st now input with
      ⟨h1, -⟩ | ⟨s₀, hload, -, -, heq⟩
    · rw [h1, hk] at hk'
      cases hk'
      exact ⟨[], (List.append_nil _).symm⟩
    · rw [heq] at hk'
      rw [lookupFile_insertFile] at hk'
      split at hk'
      · rename_i hkey
        cases hk'
        have hlk₀ := (load_eq_some_elim st input.session_id s₀ hload).2.2.1
        rw [hkey, hk] at hlk₀
        cases hlk₀
        exact ⟨[], by rw [forceApproveResult_plans, List.append_nil]⟩
      · rw [hk] at hk'
        cases hk'
        exact ⟨[], (List.append_nil _).symm⟩
  | delete unlinkOk st input =>
    intro k s s' hk hk'
    rcases plDelete_cases unlinkOk st input with h1 | ⟨s₀, -, h1⟩
    · rw [h1, hk] at hk'
      cases hk'
      exact ⟨[], (List.append_nil _).symm⟩
    · rw [h1] at hk'
      rw [lookupFile_eraseFile] at hk'
      split at hk'
      · cases hk'
      · rw [hk] at hk'
        cases hk'
        exact ⟨[], (List.append_nil _).symm⟩

/-! ## Evaluation lemmas for the feedback state update -/

theorem feedbackResult_feedbacks (s : Session) (r : Rating) (content : String)
    (lp : Plan) (now : String) :
    (feedbackResult s r content lp now).feedbacks =
      s.feedbacks ++
        [({ planVersion := lp.version, rating := r, content := content,
            submittedAt := now } : Feedback)] := by
  unfold feedbackResult
  split
  · rfl
  · split <;> rfl

theorem feedbackResult_green (s : Session) (content : String) (lp : Plan)
    (now : String) :
    (feedbackResult s .green content lp now).status = .approved ∧
      (feedbackResult s .green content lp now).iteration = s.iteration := by
  unfold feedbackResult
  rw [if_pos rfl]
  exact ⟨rfl, rfl⟩

theorem feedbackResult_nongreen (s : Session) (r : Rating) (content : String)
    (lp : Plan) (now : String) (hr : r ≠ .green) :
    (feedbackResult s r content lp now).iteration = s.iteration + 1 ∧
      (feedbackResult s r content lp now).status =
        (if s.maxIterations ≤ s.iteration + 1 then .exhausted
         else .pending_revision) := by
  unfold feedbackResult
  rw [if_neg hr]
  by_cases hcap : s.iteration + 1 ≥ s.maxIterations
  · rw [if_pos hcap, if_pos hcap]
    exact ⟨rfl, rfl⟩
  · rw [if_neg hcap, if_neg (by omega)]
    exact ⟨rfl, rfl⟩

/-- A 🟢 rating parses to `green`, anything else that parses does not. -/
theorem parseRating_green_iff (x : String) :
    parseRating x = some .green ↔ x = "🟢" := by
  constructor
  · intro h
    unfold parseRating at h
    split at h
    · cases h
    · split at h
      · cases h
      · split at h
        · assumption
        · cases h
  · intro h
    rw [h]
    rfl

/-! ## Claim theorems -/

/-- C1: for a session loaded in status `pending_review`, a successful
feedback submission with 🟢 sets the stored status to `approved` and
leaves `iteration` unchanged, while a successful submission with 🔴 or 🟡
appends the feedback, increments `iteration` by exactly 1, and sets the
status to `exhausted` when the new iteration has reached `maxIterations`
and to `pending_revision` otherwise; from any other status, `plFeedback`
returns the state error and leaves the store unchanged. -/
theorem c1_feedback_transitions (st : FileStore) (now : String)
    (input : PlFeedbackInput) (s : Session)
    (hload : load st input.session_id = some s)
    (hsid : isNonEmptyString input.session_id = true) :
    (s.status ≠ .pending_review →
      plFeedback st now input =
        (st, .error ("Invalid state: current=\x27" ++ s.status.toText ++
          "\x27, expected=[\x27pending_review\x27]"))) ∧
    (∀ st' res, plFeedback st now input = (st', .ok res) →
      ∃ r lp, parseRating input.rating = some r ∧ getLatestPlan s = some lp ∧
        ∃ stored, lookupFile st' s.id = some stored ∧
          res = (stored.status, stored.iteration) ∧
          stored.feedbacks = s.feedbacks ++
            [({ planVersion := lp.version, rating := r,
                content := input.content, submittedAt := now } : Feedback)] ∧
          (r = .green →
            stored.status = .approved ∧ stored.iteration = s.iteration) ∧
          (r ≠ .green →
            stored.iteration = s.iteration + 1 ∧
            (s.iteration + 1 ≥ s.maxIterations → stored.status = .exhausted) ∧
            (s.iteration + 1 < s.maxIterations →
              stored.status = .pending_revision))) := by
  constructor
  · intro hne
    simp only [plFeedback, hsid, Bool.not_true, Bool.false_eq_true, if_false,
      hload]
    rw [if_pos hne]
  · intro st' res hok
    rcases plFeedback_cases st now input with
      ⟨h1, m, h2⟩ | ⟨s₀, r, lp, hload₀, hst₀, hr₀, hc₀, hlp₀, hpv₀, heq⟩
    · rw [hok] at h2
      cases h2
    · rw [hload] at hload₀
      cases hload₀
      rw [hok] at heq
      rw [Prod.mk.injEq] at heq
      obtain ⟨hst', hres⟩ := heq
      cases hres
      refine ⟨r, lp, hr₀, hlp₀, feedbackResult s r input.content lp now, ?_,
        rfl, feedbackResult_feedbacks s r input.content lp now, ?_, ?_⟩
      · rw [hst', lookupFile_insertFile, if_pos rfl]
      · intro hgr
        subst hgr
        exact feedbackResult_green s input.content lp now
      · intro hngr
        obtain ⟨hiter, hstat⟩ :=
          feedbackResult_nongreen s r input.content lp now hngr
        refine ⟨hiter, ?_, ?_⟩
        · intro hcap
          rw [hstat, if_pos (by omega)]
        · intro hncap
          rw [hstat, if_neg (by omega)]

/-- C2: in every store reachable from creation through the tool calls,
every session satisfies `iteration ≤ maxIterations`, with
`iteration < maxIterations` strictly whenever the status is `drafting`,
`pending_review` or `pending_revision`; and a successful non-approval
feedback that makes the iteration reach `maxIterations` reports status
`exhausted`, not `pending_revision`. -/
theorem c2_iteration_bounds (st : FileStore) (hreach : ReachableStore st) :
    (∀ k s, lookupFile st k = some s →
      s.iteration ≤ s.maxIterations ∧
      ((s.status = .drafting ∨ s.status = .pending_review ∨
          s.status = .pending_revision) →
        s.iteration < s.maxIterations)) ∧
    (∀ now input s st' res r, load st input.session_id = some s →
      parseRating input.rating = some r → r ≠ .green →
      plFeedback st now input = (st', .ok res) →
      s.iteration + 1 = s.maxIterations →
      res.1 = .exhausted ∧ res.1 ≠ .pending_revision) := by
  constructor
  · intro k s hk
    obtain ⟨h1, h2, -, -, -⟩ := reachable_inv st hreach k s hk
    exact ⟨h1, h2⟩
  · intro now input s st' res r hload hr hngr hok hcap
    rcases plFeedback_cases st now input with
      ⟨h1, m, h2⟩ | ⟨s₀, r₀, lp, hload₀, hst₀, hr₀, hc₀, hlp₀, hpv₀, heq⟩
    · rw [hok] at h2
      cases h2
    · rw [hload] at hload₀
      cases hload₀
      rw [hr] at hr₀
      cases hr₀
      rw [hok] at heq
      rw [Prod.mk.injEq] at heq
      obtain ⟨-, hres⟩ := heq
      cases hres
      obtain ⟨-, hstat⟩ := feedbackResult_nongreen s r input.content lp now hngr
      constructor
      · show (feedbackResult s r input.content lp now).status = .exhausted
        rw [hstat, if_pos (by omega)]
      · show (feedbackResult s r input.content lp now).status ≠ .pending_revision
        rw [hstat, if_pos (by omega)]
        intro hcon
        cases hcon

/-- C3: in every reachable store, every session has
`plans.length = version` with `plans[i].version = i + 1` for every index
(so after N successful submissions there are exactly N plans, versioned
1..N); each successful `plSubmit` appends exactly one plan and increments
`version` by exactly 1; and no tool call ever modifies, reorders or
removes a previously appended plan entry (the old plan list is always a
prefix of the new one). -/
theorem c3_plans_append_only (st : FileStore) (hreach : ReachableStore st) :
    (∀ k s, lookupFile st k = some s →
      s.plans.length = s.version ∧
      ∀ i (hi : i < s.plans.length), s.plans[i].version = i + 1) ∧
    (∀ now input st' res s, load st input.session_id = some s →
      plSubmit st now input = (st', .ok res) →
      ∃ stored, lookupFile st' s.id = some stored ∧
        stored.version = s.version + 1 ∧
        stored.plans = s.plans ++
          [({ version := s.version + 1, content := input.plan,
              submittedAt := now } : Plan)]) ∧
    (∀ st', StoreStep st st' → ∀ k s s', lookupFile st k = some s →
      lookupFile st' k = some s' → ∃ t, s'.plans = s.plans ++ t) := by
  refine ⟨?_, ?_, fun st' hstep => storeStep_plans_prefix st st' hstep⟩
  · intro k s hk
    obtain ⟨-, -, h3, h4, -⟩ := reachable_inv st hreach k s hk
    exact ⟨h3, h4⟩
  · intro now input st' res s hload hok
    rcases plSubmit_cases st now input with
      ⟨h1, m, h2⟩ | ⟨s₀, hload₀, hstates₀, hplan₀, heq⟩
    · rw [hok] at h2
      cases h2
    · rw [hload] at hload₀
      cases hload₀
      rw [hok] at heq
      rw [Prod.mk.injEq] at heq
      obtain ⟨hst', -⟩ := heq
      refine ⟨submitResult s input.plan now, ?_, rfl, rfl⟩
      rw [hst', lookupFile_insertFile, if_pos rfl]

/-- C4: an identifier that fails the UUID-v4 shape check after lowercasing
(for example one containing a path separator or `..`) makes `load` return
`none` and `remove` return `false` — both total functions, so neither
throws — while `save` on a session with such an id raises; and every file
path the store ever builds is `stateDir/<nid>.json` for a shape-valid
`nid` containing no separator, backslash or dot, hence inside the storage
root. -/
theorem c4_path_traversal_rejection :
    (∀ id, isValidSessionId (normalizeSessionId id) = false →
      (∀ st, load st id = none) ∧
      (∀ unlinkOk st, remove unlinkOk st id = (st, false)) ∧
      (∀ writeOk st s now, s.id = id →
        save writeOk st s now =
          .error ("[plan-loop] Cannot save session with invalid id: " ++ id))) ∧
    (∀ stateDir id p nid, getSecureFilePath stateDir id = some (p, nid) →
      p = stateDir ++ "/" ++ nid ++ ".json" ∧
      isValidSessionId nid = true ∧
      ∀ c ∈ nid.data, c ≠ '/' ∧ c ≠ '\\' ∧ c ≠ '.') := by
  constructor
  · intro id hinvalid
    have hsec := secureId_eq_none id hinvalid
    refine ⟨fun st => ?_, fun unlinkOk st => ?_, fun writeOk st s now hid => ?_⟩
    · unfold load
      rw [hsec]
    · unfold remove
      rw [hsec]
    · subst hid
      exact save_err_of_invalid writeOk st s now hinvalid
  · intro stateDir id p nid h
    unfold getSecureFilePath at h
    cases hsec : secureId id with
    | none => rw [hsec] at h; cases h
    | some nid' =>
      rw [hsec] at h
      have h' := Prod.mk.injEq .. ▸ Option.some.inj h
      obtain ⟨hp, hnid⟩ := h'
      subst hnid
      obtain ⟨-, hvalid⟩ := secureId_eq_some id nid' hsec
      obtain ⟨-, hchars⟩ := isValidSessionId_elim nid' hvalid
      exact ⟨hp.symm, hvalid, uuidV4CharsOk_safe nid'.data 0 hchars⟩

/-- C7: saving a well-formed session (shape-valid id after lowercasing,
non-empty goal, positive iteration cap) and loading it back under its
original id returns exactly the saved record: equal to the input except
that `updatedAt` was re-stamped and `id` was lowercased to canonical
form. -/
theorem c7_save_load_roundtrip (st : FileStore) (s : Session) (now : String)
    (hid : isValidSessionId (normalizeSessionId s.id) = true)
    (hgoal : 1 ≤ s.goal.length) (hmax : 1 ≤ s.maxIterations) :
    ∃ st', save true st s now =
        .ok (st', { s with id := normalizeSessionId s.id, updatedAt := now }) ∧
      load st' s.id =
        some { s with id := normalizeSessionId s.id, updatedAt := now } := by
  have hsec : secureId s.id = some (normalizeSessionId s.id) := by
    unfold secureId
    rw [if_pos hid]
  refine ⟨insertFile st (normalizeSessionId s.id)
    { s with id := normalizeSessionId s.id, updatedAt := now },
    save_true_eq st s now (normalizeSessionId s.id) hsec, ?_⟩
  have hschema : schemaValid
      { s with id := normalizeSessionId s.id, updatedAt := now } = true := by
    simp only [schemaValid, Bool.and_eq_true, decide_eq_true_eq]
    exact ⟨⟨zodUuid_of_valid (normalizeSessionId s.id) hid, hgoal⟩, hmax⟩
  unfold load
  rw [hsec]
  simp only [lookupFile_insertFile, if_pos rfl, hschema, if_true]

/-- C9: `plForceApprove` on a loaded session in status `exhausted` with a
non-empty reason succeeds, stores the session with status `approved` and
exactly one appended feedback — rated 🟢, content `[FORCE APPROVED] `
followed by the reason, `planVersion` the latest plan's version (falling
back to `session.version` when no plan exists) — and leaves `version`,
`iteration`, `maxIterations`, `goal`, `plans`, `createdAt`, the id and
every pre-existing feedback unchanged. -/
theorem c9_force_approve_effect (st : FileStore) (now : String)
    (input : PlForceApproveInput) (s : Session)
    (hsid : isNonEmptyString input.session_id = true)
    (hload : load st input.session_id = some s)
    (hstat : s.status = .exhausted)
    (hreason : isNonEmptyString input.reason = true) :
    ∃ st', plForceApprove st now input = (st', .ok .approved) ∧
      lookupFile st' s.id = some
        { s with
          status := .approved
          feedbacks := s.feedbacks ++
            [({ planVersion :=
                  (((getLatestPlan s).map Plan.version).getD s.version),
                rating := .green,
                content := "[FORCE APPROVED] " ++ input.reason,
                submittedAt := now } : Feedback)]
          updatedAt := now } := by
  have hvalid := (load_eq_some_elim st input.session_id s hload).2.1
  refine ⟨insertFile st s.id (forceApproveResult s input.reason now), ?_, ?_⟩
  · simp only [plForceApprove, hsid, Bool.not_true, Bool.false_eq_true,
      if_false, hload]
    rw [if_neg (by simp [hstat]), if_neg (by simp [hreason])]
    rw [save_true_of_valid st (forceApproveSession s input.reason now) now
      hvalid]
    rfl
  · rw [lookupFile_insertFile, if_pos rfl]
    rfl

/-- Under all the guards of a feedback call with an integer
`plan_version`, `plFeedback` reduces to the optimistic-concurrency
comparison against the latest plan's version. -/
theorem plFeedback_reduce_intVal (st : FileStore) (now : String)
    (input : PlFeedbackInput) (s : Session) (r : Rating) (lp : Plan)
    (v : Int)
    (hsid : isNonEmptyString input.session_id = true)
    (hload : load st input.session_id = some s)
    (hstat : s.status = .pending_review)
    (hr : parseRating input.rating = some r)
    (hcontent : isNonEmptyString input.content = true)
    (hlp : getLatestPlan s = some lp)
    (hpv : input.plan_version = some (.intVal v)) :
    plFeedback st now input =
      if v = (lp.version : Int) then
        applyFeedback st s r input.content lp now
      else
        (st, .error ("Plan version mismatch: expected=" ++
          toString lp.version ++ ", provided=" ++ toString v ++
          ". Another agent may have submitted a new plan.")) := by
  simp only [plFeedback, hsid, Bool.not_true, Bool.false_eq_true, if_false,
    hload]
  rw [if_neg (by simp [hstat])]
  simp only [hr, hcontent, Bool.not_true, Bool.false_eq_true, if_false, hlp,
    hpv]

/-- Under all the guards of a feedback call with `plan_version` omitted,
`plFeedback` applies the feedback to the latest plan unconditionally. -/
theorem plFeedback_reduce_none (st : FileStore) (now : String)
    (input : PlFeedbackInput) (s : Session) (r : Rating) (lp : Plan)
    (hsid : isNonEmptyString input.session_id = true)
    (hload : load st input.session_id = some s)
    (hstat : s.status = .pending_review)
    (hr : parseRating input.rating = some r)
    (hcontent : isNonEmptyString input.content = true)
    (hlp : getLatestPlan s = some lp)
    (hpv : input.plan_version = none) :
    plFeedback st now input = applyFeedback st s r input.content lp now := by
  simp only [plFeedback, hsid, Bool.not_true, Bool.false_eq_true, if_false,
    hload]
  rw [if_neg (by simp [hstat])]
  simp only [hr, hcontent, Bool.not_true, Bool.false_eq_true, if_false, hlp,
    hpv]

/-- C5: when a feedback call supplies an integer `plan_version` different
from the latest plan's version, it is rejected with an error naming both
the expected and the provided version and the store is unchanged; when it
supplies the matching version, or omits `plan_version`, the feedback is
applied to the latest plan. -/
theorem c5_optimistic_concurrency (st : FileStore) (now : String)
    (input : PlFeedbackInput) (s : Session) (r : Rating) (lp : Plan)
    (hsid : isNonEmptyString input.session_id = true)
    (hload : load st input.session_id = some s)
    (hstat : s.status = .pending_review)
    (hr : parseRating input.rating = some r)
    (hcontent : isNonEmptyString input.content = true)
    (hlp : getLatestPlan s = some lp) :
    (∀ v : Int, input.plan_version = some (.intVal v) →
      v ≠ (lp.version : Int) →
      plFeedback st now input =
        (st, .error ("Plan version mismatch: expected=" ++
          toString lp.version ++ ", provided=" ++ toString v ++
          ". Another agent may have submitted a new plan."))) ∧
    ((input.plan_version = some (.intVal (lp.version : Int)) ∨
        input.plan_version = none) →
      plFeedback st now input =
        (insertFile st s.id (feedbackResult s r input.content lp now),
         .ok ((feedbackResult s r input.content lp now).status,
              (feedbackResult s r input.content lp now).iteration)) ∧
      (feedbackResult s r input.content lp now).feedbacks =
        s.feedbacks ++
          [({ planVersion := lp.version, rating := r,
              content := input.content, submittedAt := now } : Feedback)]) := by
  have hvalid := (load_eq_some_elim st input.session_id s hload).2.1
  constructor
  · intro v hv hne
    rw [plFeedback_reduce_intVal st now input s r lp v hsid hload hstat hr
      hcontent hlp hv]
    rw [if_neg hne]
  · intro hcase
    refine ⟨?_, feedbackResult_feedbacks s r input.content lp now⟩
    rcases hcase with hv | hv
    · rw [plFeedback_reduce_intVal st now input s r lp (lp.version : Int)
        hsid hload hstat hr hcontent hlp hv]
      rw [if_pos rfl]
      exact applyFeedback_eq st s r input.content lp now hvalid
    · rw [plFeedback_reduce_none st now input s r lp hsid hload hstat hr
        hcontent hlp hv]
      exact applyFeedback_eq st s r input.content lp now hvalid

/-- C6: for a loaded session the latest-feedback query is read-only on the
store and returns exactly one of three outcomes: `no_plan_submitted` when
no plan exists; a pending result — `awaiting_feedback` in status
`pending_review`, `no_feedback_yet` otherwise — when there is no feedback
or the latest feedback targets an older plan than the latest one; and the
latest feedback record itself otherwise. -/
theorem c6_get_feedback_tristate (st : FileStore) (id : String) (s : Session)
    (hsid : isNonEmptyString id = true)
    (hload : load st id = some s) :
    (plGetFeedback st id).1 = st ∧
    (s.plans = [] →
      (plGetFeedback st id).2 = .ok (.pending .no_plan_submitted)) ∧
    (∀ lp, getLatestPlan s = some lp →
      ((s.feedbacks = [] ∨
          ∃ lf, getLatestFeedback s = some lf ∧ lf.planVersion < lp.version) →
        (plGetFeedback st id).2 = .ok (.pending
          (if s.status = .pending_review then .awaiting_feedback
           else .no_feedback_yet))) ∧
      (∀ lf, getLatestFeedback s = some lf → lp.version ≤ lf.planVersion →
        (plGetFeedback st id).2 = .ok (.ready lf))) := by
  refine ⟨?_, ?_, ?_⟩
  · simp only [plGetFeedback, hsid, Bool.not_true, Bool.false_eq_true,
      if_false, hload]
    split
    · rfl
    · split
      · rfl
      · split <;> rfl
  · intro hplans
    have hlp : getLatestPlan s = none := by
      unfold getLatestPlan
      rw [hplans]
      rfl
    simp only [plGetFeedback, hsid, Bool.not_true, Bool.false_eq_true,
      if_false, hload, hlp]
  · intro lp hlp
    constructor
    · intro hcase
      simp only [plGetFeedback, hsid, Bool.not_true, Bool.false_eq_true,
        if_false, hload, hlp]
      rcases hcase with hfb | ⟨lf, hlf, hlt⟩
      · have hlf : getLatestFeedback s = none := by
          unfold getLatestFeedback
          rw [hfb]
          rfl
        simp only [hlf]
      · simp only [hlf]
        rw [if_pos hlt]
    · intro lf hlf hge
      simp only [plGetFeedback, hsid, Bool.not_true, Bool.false_eq_true,
        if_false, hload, hlp, hlf]
      rw [if_neg (by omega)]

/-- C10: `remove` is a total function into `Bool` — it never throws: an
invalid id, a missing file, and a failing `unlinkSync` (`unlinkOk =
false`) all yield `false` with the store untouched; `plDelete` surfaces
the deletion failure as the structured `Failed to delete` error result;
by contrast a failing write inside `save` propagates as an exception
(`Except.error`). -/
theorem c10_remove_never_throws :
    (∀ unlinkOk st id, isValidSessionId (normalizeSessionId id) = false →
      remove unlinkOk st id = (st, false)) ∧
    (∀ unlinkOk st id nid, secureId id = some nid →
      lookupFile st nid = none →
      remove unlinkOk st id = (st, false)) ∧
    (∀ st id s, load st id = some s → remove false st id = (st, false)) ∧
    (∀ st input s, isNonEmptyString input.session_id = true →
      load st input.session_id = some s →
      ((s.status = .approved ∨ s.status = .exhausted) ∨ input.force = true) →
      plDelete false st input =
        (st, .error ("Failed to delete session: " ++ input.session_id))) ∧
    (∀ st s now nid, secureId s.id = some nid →
      save false st s now = .error "EIO: write failed") := by
  refine ⟨?_, ?_, ?_, ?_, ?_⟩
  · intro unlinkOk st id h
    unfold remove
    rw [secureId_eq_none id h]
  · intro unlinkOk st id nid hsec hlk
    unfold remove
    rw [hsec]
    simp only [hlk]
  · intro st id s hload
    rw [remove_eq_of_load false st id s hload]
    rfl
  · intro st input s hsid hload hgate
    simp only [plDelete, hsid, Bool.not_true, Bool.false_eq_true, if_false,
      hload]
    rw [if_neg (by rcases hgate with h | h <;> simp [h])]
    rw [remove_eq_of_load false st input.session_id s hload]
    rfl
  · intro st s now nid hsec
    unfold save
    rw [hsec]
    rfl

/-- C8 counterexample: the claim says a submission with an empty plan
against a nonexistent session still yields the plan-validation error, but
`plSubmit` loads the session before validating the plan field, so on an
empty store it returns the not-found error instead. -/
theorem c8_counterexample :
    plSubmit [] "t0"
        { session_id := "aaaaaaaa-aaaa-4aaa-8aaa-aaaaaaaaaaaa", plan := "" } =
      ([], .error
        "Session not found: aaaaaaaa-aaaa-4aaa-8aaa-aaaaaaaaaaaa") ∧
    ToolResult.error (α := Nat × SessionStatus)
        "Session not found: aaaaaaaa-aaaa-4aaa-8aaa-aaaaaaaaaaaa" ≠
      ToolResult.error "plan is required" := by
  constructor
  · decide
  · intro h
    exact absurd (ToolResult.error.inj h) (by decide)

/-- C8 (amended): identifier validation (and, for `plStart`, the goal and
iteration-cap validation) happens before any storage access — the result
on a bad `session_id` / `goal` / `maxIterations` does not depend on the
store and leaves it unchanged; the remaining field validations (plan,
rating, content, `plan_version`, reason) run only after the session was
loaded and its state checked — so a nonexistent session yields the
not-found error first — but always before any mutation: every error
outcome of a mutating tool returns the store unchanged, and each
validation error names the offending field. -/
theorem c8_validation_order (st : FileStore) :
    (∀ now input, isNonEmptyString input.session_id = false →
      plSubmit st now input = (st, .error "session_id is required")) ∧
    (∀ now input, isNonEmptyString input.session_id = false →
      plFeedback st now input = (st, .error "session_id is required")) ∧
    (∀ now input, isNonEmptyString input.session_id = false →
      plForceApprove st now input = (st, .error "session_id is required")) ∧
    (∀ freshId now goal mi, isNonEmptyString goal = false →
      plStart st freshId now goal mi = (st, .error "goal is required")) ∧
    (∀ freshId now goal m, isNonEmptyString goal = true → m < 1 →
      plStart st freshId now goal (some (.intVal m)) =
        (st, .error "maxIterations must be a positive integer")) ∧
    (∀ (now : String) (input : String × String × Option JsNum) st' m,
      plStart st now input.1 input.2.1 input.2.2 =
        (st', ToolResult.error m) → st' = st) ∧
    (∀ now input st' m, plSubmit st now input = (st', .error m) → st' = st) ∧
    (∀ now input st' m, plFeedback st now input = (st', .error m) →
      st' = st) ∧
    (∀ now input st' m, plForceApprove st now input = (st', .error m) →
      st' = st) ∧
    (∀ now input s, isNonEmptyString input.session_id = true →
      load st input.session_id = some s →
      (s.status = .drafting ∨ s.status = .pending_revision) →
      isNonEmptyString input.plan = false →
      plSubmit st now input = (st, .error "plan is required")) ∧
    (∀ now input s, isNonEmptyString input.session_id = true →
      load st input.session_id = some s → s.status = .pending_review →
      parseRating input.rating = none →
      plFeedback st now input = (st, .error ("Invalid rating: " ++
        input.rating ++ ", expected one of [\"🔴\",\"🟡\",\"🟢\"]"))) ∧
    (∀ now input s r, isNonEmptyString input.session_id = true →
      load st input.session_id = some s → s.status = .pending_review →
      parseRating input.rating = some r →
      isNonEmptyString input.content = false →
      plFeedback st now input = (st, .error "content is required")) ∧
    (∀ now input s r lp, isNonEmptyString input.session_id = true →
      load st input.session_id = some s → s.status = .pending_review →
      parseRating input.rating = some r →
      isNonEmptyString input.content = true → getLatestPlan s = some lp →
      input.plan_version = some .nonInt →
      plFeedback st now input =
        (st, .error "plan_version must be an integer")) ∧
    (∀ now input s, isNonEmptyString input.session_id = true →
      load st input.session_id = some s → s.status = .exhausted →
      isNonEmptyString input.reason = false →
      plForceApprove st now input = (st, .error "reason is required")) := by
  refine ⟨?_, ?_, ?_, ?_, ?_, ?_, ?_, ?_, ?_, ?_, ?_, ?_, ?_, ?_⟩
  · intro now input h
    simp only [plSubmit, h, Bool.not_false, if_true]
  · intro now input h
    simp only [plFeedback, h, Bool.not_false, if_true]
  · intro now input h
    simp only [plForceApprove, h, Bool.not_false, if_true]
  · intro freshId now goal mi h
    simp only [plStart, h, Bool.not_false, if_true]
  · intro freshId now goal m hgoal hm
    simp only [plStart, hgoal, Bool.not_true, Bool.false_eq_true, if_false,
      Option.getD_some]
    rw [if_pos hm]
  · intro now input st' m h
    rcases plStart_cases st now input.1 input.2.1 input.2.2 with
      ⟨h1, m', h2⟩ | ⟨m', -, -, -, -, heq⟩
    · rw [h] at h1
      exact h1
    · rw [h] at heq
      rw [Prod.mk.injEq] at heq
      cases heq.2
  · intro now input st' m h
    rcases plSubmit_cases st now input with ⟨h1, m', h2⟩ | ⟨s, -, -, -, heq⟩
    · rw [h] at h1
      exact h1
    · rw [h] at heq
      rw [Prod.mk.injEq] at heq
      cases heq.2
  · intro now input st' m h
    rcases plFeedback_cases st now input with
      ⟨h1, m', h2⟩ | ⟨s, r, lp, -, -, -, -, -, -, heq⟩
    · rw [h] at h1
      exact h1
    · rw [h] at heq
      rw [Prod.mk.injEq] at heq
      cases heq.2
  · intro now input st' m h
    rcases plForceApprove_cases st now input with
      ⟨h1, m', h2⟩ | ⟨s, -, -, -, heq⟩
    · rw [h] at h1
      exact h1
    · rw [h] at heq
      rw [Prod.mk.injEq] at heq
      cases heq.2
  · intro now input s hsid hload hstates hplan
    simp only [plSubmit, hsid, Bool.not_true, Bool.false_eq_true, if_false,
      hload]
    rw [if_neg (by simp [hstates])]
    simp only [hplan, Bool.not_false, if_true]
  · intro now input s hsid hload hstat hr
    simp only [plFeedback, hsid, Bool.not_true, Bool.false_eq_true, if_false,
      hload]
    rw [if_neg (by simp [hstat])]
    simp only [hr]
  · intro now input s r hsid hload hstat hr hcontent
    simp only [plFeedback, hsid, Bool.not_true, Bool.false_eq_true, if_false,
      hload]
    rw [if_neg (by simp [hstat])]
    simp only [hr, hcontent, Bool.not_false, if_true]
  · intro now input s r lp hsid hload hstat hr hcontent hlp hpv
    simp only [plFeedback, hsid, Bool.not_true, Bool.false_eq_true, if_false,
      hload]
    rw [if_neg (by simp [hstat])]
    simp only [hr, hcontent, Bool.not_true, Bool.false_eq_true, if_false,
      hlp, hpv]
  · intro now input s hsid hload hstat hreason
    simp only [plForceApprove, hsid, Bool.not_true, Bool.false_eq_true,
      if_false, hload]
    rw [if_neg (by simp [hstat])]
    simp only [hreason, Bool.not_false, if_true]

/-! ## A concrete end-to-end scenario (spec §8 scenario 2), used to
exercise the theorems on explicit inputs -/

def exId : String := "aaaaaaaa-aaaa-4aaa-8aaa-aaaaaaaaaaaa"

def exStore0 : FileStore :=
  (plStart [] exId "t0" "Implement login feature" (some (.intVal 2))).1

def exStore1 : FileStore :=
  (plSubmit exStore0 "t1" { session_id := exId, plan := "Plan v1" }).1

def exStore2 : FileStore :=
  (plFeedback exStore1 "t2"
    { session_id := exId, rating := "🔴", content := "Major issues",
      plan_version := none }).1

def exStore3 : FileStore :=
  (plSubmit exStore2 "t3" { session_id := exId, plan := "Plan v2" }).1

def exStore4 : FileStore :=
  (plFeedback exStore3 "t4"
    { session_id := exId, rating := "🔴", content := "Still bad",
      plan_version := some (.intVal 2) }).1

def exSession0 : Session :=
  { id := exId, goal := "Implement login feature", status := .drafting,
    version := 0, iteration := 0, maxIterations := 2, plans := [],
    feedbacks := [], createdAt := "t0", updatedAt := "t0" }

def exSession2 : Session :=
  { id := exId, goal := "Implement login feature", status := .pending_revision,
    version := 1, iteration := 1, maxIterations := 2,
    plans := [⟨1, "Plan v1", "t1"⟩],
    feedbacks := [⟨1, .red, "Major issues", "t2"⟩],
    createdAt := "t0", updatedAt := "t2" }

def exSession3 : Session :=
  { id := exId, goal := "Implement login feature", status := .pending_review,
    version := 2, iteration := 1, maxIterations := 2,
    plans := [⟨1, "Plan v1", "t1"⟩, ⟨2, "Plan v2", "t3"⟩],
    feedbacks := [⟨1, .red, "Major issues", "t2"⟩],
    createdAt := "t0", updatedAt := "t3" }

def exSession4 : Session :=
  { id := exId, goal := "Implement login feature", status := .exhausted,
    version := 2, iteration := 2, maxIterations := 2,
    plans := [⟨1, "Plan v1", "t1"⟩, ⟨2, "Plan v2", "t3"⟩],
    feedbacks := [⟨1, .red, "Major issues", "t2"⟩,
                  ⟨2, .red, "Still bad", "t4"⟩],
    createdAt := "t0", updatedAt := "t4" }

def exSession1 : Session :=
  { id := exId, goal := "Implement login feature", status := .pending_review,
    version := 1, iteration := 0, maxIterations := 2,
    plans := [⟨1, "Plan v1", "t1"⟩],
    feedbacks := [], createdAt := "t0", updatedAt := "t1" }

def exUpperSession : Session :=
  { id := "AAAAAAAA-AAAA-4AAA-8AAA-AAAAAAAAAAAA", goal := "Goal",
    status := .drafting, version := 0, iteration := 0, maxIterations := 5,
    plans := [], feedbacks := [], createdAt := "t0", updatedAt := "t0" }

theorem exStore0_reachable : ReachableStore exStore0 :=
  .step [] exStore0 .nil
    (.start [] exId "t0" "Implement login feature" (some (.intVal 2))
      (by decide) rfl)

theorem exStore1_reachable : ReachableStore exStore1 :=
  .step exStore0 exStore1 exStore0_reachable
    (.submit exStore0 "t1" { session_id := exId, plan := "Plan v1" })

theorem exStore2_reachable : ReachableStore exStore2 :=
  .step exStore1 exStore2 exStore1_reachable
    (.feedback exStore1 "t2"
      { session_id := exId, rating := "🔴", content := "Major issues",
        plan_version := none })

theorem exStore3_reachable : ReachableStore exStore3 :=
  .step exStore2 exStore3 exStore2_reachable
    (.submit exStore2 "t3" { session_id := exId, plan := "Plan v2" })

/-! ## Witnesses -/

theorem c1_witness :
    ∃ r lp, parseRating "🔴" = some r ∧ getLatestPlan exSession3 = some lp ∧
      ∃ stored, lookupFile exStore4 exSession3.id = some stored ∧
        ((SessionStatus.exhausted, 2) : SessionStatus × Nat) =
          (stored.status, stored.iteration) ∧
        stored.feedbacks = exSession3.feedbacks ++
          [({ planVersion := lp.version, rating := r, content := "Still bad",
              submittedAt := "t4" } : Feedback)] ∧
        (r = .green → stored.status = .approved ∧
          stored.iteration = exSession3.iteration) ∧
        (r ≠ .green → stored.iteration = exSession3.iteration + 1 ∧
          (exSession3.iteration + 1 ≥ exSession3.maxIterations →
            stored.status = .exhausted) ∧
          (exSession3.iteration + 1 < exSession3.maxIterations →
            stored.status = .pending_revision)) :=
  (c1_feedback_transitions exStore3 "t4"
    { session_id := exId, rating := "🔴", content := "Still bad",
      plan_version := some (.intVal 2) } exSession3 (by decide)
    (by decide)).2 exStore4 (.exhausted, 2) (by decide)

theorem c2_witness :
    (exSession3.iteration ≤ exSession3.maxIterations ∧
      ((exSession3.status = .drafting ∨ exSession3.status = .pending_review ∨
          exSession3.status = .pending_revision) →
        exSession3.iteration < exSession3.maxIterations)) ∧
    ((SessionStatus.exhausted, 2) : SessionStatus × Nat).1 = .exhausted ∧
    ((SessionStatus.exhausted, 2) : SessionStatus × Nat).1 ≠
      .pending_revision := by
  have h := c2_iteration_bounds exStore3 exStore3_reachable
  have h2 := h.2 "t4"
    { session_id := exId, rating := "🔴", content := "Still bad",
      plan_version := some (.intVal 2) } exSession3 exStore4
    (.exhausted, 2) .red (by decide) (by decide) (by decide) (by decide)
    (by decide)
  exact ⟨h.1 exId exSession3 (by decide), h2.1, h2.2⟩

theorem c3_witness :
    exSession3.plans.length = exSession3.version ∧
    (∃ stored, lookupFile exStore3 exSession2.id = some stored ∧
      stored.version = exSession2.version + 1 ∧
      stored.plans = exSession2.plans ++
        [({ version := exSession2.version + 1, content := "Plan v2",
            submittedAt := "t3" } : Plan)]) ∧
    (∃ t, exSession4.plans = exSession3.plans ++ t) :=
  ⟨((c3_plans_append_only exStore3 exStore3_reachable).1 exId exSession3
      (by decide)).1,
   (c3_plans_append_only exStore2 exStore2_reachable).2.1 "t3"
     { session_id := exId, plan := "Plan v2" } exStore3 (2, .pending_review)
     exSession2 (by decide) (by decide),
   (c3_plans_append_only exStore3 exStore3_reachable).2.2 exStore4
     (.feedback exStore3 "t4"
       { session_id := exId, rating := "🔴", content := "Still bad",
         plan_version := some (.intVal 2) })
     exId exSession3 exSession4 (by decide) (by decide)⟩

theorem c4_witness :
    isValidSessionId (normalizeSessionId "../../etc/passwd") = false ∧
    load [] "../../etc/passwd" = none ∧
    remove true [] "../../etc/passwd" = ([], false) ∧
    save true [] { exSession0 with id := "../../etc/passwd" } "t0" =
      .error ("[plan-loop] Cannot save session with invalid id: " ++
        "../../etc/passwd") ∧
    isValidSessionId exId = true := by
  have h := (c4_path_traversal_rejection).1 "../../etc/passwd" (by decide)
  refine ⟨by decide, h.1 [], h.2.1 true [], h.2.2 true [] _ "t0" rfl, ?_⟩
  exact ((c4_path_traversal_rejection).2 "/root/.plan-loop/sessions" exId
    ("/root/.plan-loop/sessions" ++ "/" ++ exId ++ ".json") exId
    (by decide)).2.1

theorem c5_witness :
    plFeedback exStore3 "t4"
        { session_id := exId, rating := "🔴", content := "Still bad",
          plan_version := some (.intVal 1) } =
      (exStore3, .error ("Plan version mismatch: expected=" ++
        toString (2 : Nat) ++ ", provided=" ++ toString (1 : Int) ++
        ". Another agent may have submitted a new plan.")) ∧
    (plFeedback exStore3 "t4"
        { session_id := exId, rating := "🔴", content := "Still bad",
          plan_version := some (.intVal 2) } =
      (insertFile exStore3 exSession3.id
        (feedbackResult exSession3 .red "Still bad" ⟨2, "Plan v2", "t3"⟩ "t4"),
       .ok ((feedbackResult exSession3 .red "Still bad"
              ⟨2, "Plan v2", "t3"⟩ "t4").status,
            (feedbackResult exSession3 .red "Still bad"
              ⟨2, "Plan v2", "t3"⟩ "t4").iteration)) ∧
      (feedbackResult exSession3 .red "Still bad"
        ⟨2, "Plan v2", "t3"⟩ "t4").feedbacks =
        exSession3.feedbacks ++
          [({ planVersion := (2 : Nat), rating := .red, content := "Still bad",
              submittedAt := "t4" } : Feedback)]) := by
  constructor
  · exact (c5_optimistic_concurrency exStore3 "t4"
      { session_id := exId, rating := "🔴", content := "Still bad",
        plan_version := some (.intVal 1) } exSession3 .red
      ⟨2, "Plan v2", "t3"⟩ (by decide) (by decide) (by decide) (by decide)
      (by decide) (by decide)).1 1 rfl (by decide)
  · exact (c5_optimistic_concurrency exStore3 "t4"
      { session_id := exId, rating := "🔴", content := "Still bad",
        plan_version := some (.intVal 2) } exSession3 .red
      ⟨2, "Plan v2", "t3"⟩ (by decide) (by decide) (by decide) (by decide)
      (by decide) (by decide)).2 (Or.inl rfl)

theorem c6_witness :
    (plGetFeedback exStore1 exId).1 = exStore1 ∧
    (plGetFeedback exStore1 exId).2 = .ok (.pending
      (if exSession1.status = .pending_review then .awaiting_feedback
       else .no_feedback_yet)) ∧
    (plGetFeedback exStore4 exId).2 =
      .ok (.ready ⟨2, .red, "Still bad", "t4"⟩) := by
  have h1 := c6_get_feedback_tristate exStore1 exId exSession1 (by decide)
    (by decide)
  have h4 := c6_get_feedback_tristate exStore4 exId exSession4 (by decide)
    (by decide)
  exact ⟨h1.1,
    (h1.2.2 ⟨1, "Plan v1", "t1"⟩ (by decide)).1 (Or.inl rfl),
    (h4.2.2 ⟨2, "Plan v2", "t3"⟩ (by decide)).2 ⟨2, .red, "Still bad", "t4"⟩
      (by decide) (by decide)⟩

theorem c7_witness :
    ∃ st', save true [] exUpperSession "t1" =
        .ok (st', { exUpperSession with
          id := normalizeSessionId exUpperSession.id, updatedAt := "t1" }) ∧
      load st' exUpperSession.id =
        some { exUpperSession with
          id := normalizeSessionId exUpperSession.id, updatedAt := "t1" } :=
  c7_save_load_roundtrip [] exUpperSession "t1" (by decide) (by decide)
    (by decide)

theorem c8_amended_witness :
    plSubmit [] "t0" { session_id := "", plan := "x" } =
      ([], .error "session_id is required") ∧
    plStart [] exId "t0" "Goal" (some (.intVal 0)) =
      ([], .error "maxIterations must be a positive integer") ∧
    plSubmit exStore0 "t1" { session_id := exId, plan := " " } =
      (exStore0, .error "plan is required") ∧
    plFeedback exStore3 "t4"
        { session_id := exId, rating := "🔴", content := "Still bad",
          plan_version := some .nonInt } =
      (exStore3, .error "plan_version must be an integer") ∧
    plForceApprove exStore4 "t5" { session_id := exId, reason := "" } =
      (exStore4, .error "reason is required") :=
  ⟨(c8_validation_order []).1 "t0" _ (by decide),
   (c8_validation_order []).2.2.2.2.1 exId "t0" "Goal" 0 (by decide)
     (by decide),
   (c8_validation_order exStore0).2.2.2.2.2.2.2.2.2.1 "t1" _ exSession0
     (by decide) (by decide) (by decide) (by decide),
   (c8_validation_order exStore3).2.2.2.2.2.2.2.2.2.2.2.2.1 "t4" _
     exSession3 .red ⟨2, "Plan v2", "t3"⟩ (by decide) (by decide)
     (by decide) (by decide) (by decide) (by decide) rfl,
   (c8_validation_order exStore4).2.2.2.2.2.2.2.2.2.2.2.2.2 "t5" _
     exSession4 (by decide) (by decide) (by decide) (by decide)⟩

theorem c9_witness :
    ∃ st', plForceApprove exStore4 "t5"
        { session_id := exId, reason := "deadline" } = (st', .ok .approved) ∧
      lookupFile st' exSession4.id = some
        { exSession4 with
          status := .approved
          feedbacks := exSession4.feedbacks ++
            [({ planVersion :=
                  (((getLatestPlan exSession4).map Plan.version).getD
                    exSession4.version),
                rating := .green,
                content := "[FORCE APPROVED] " ++ "deadline",
                submittedAt := "t5" } : Feedback)]
          updatedAt := "t5" } :=
  c9_force_approve_effect exStore4 "t5"
    { session_id := exId, reason := "deadline" } exSession4 (by decide)
    (by decide) (by decide) (by decide)

theorem c10_witness :
    remove true [] "../../etc/passwd" = ([], false) ∧
    remove true [] exId = ([], false) ∧
    remove false exStore1 exId = (exStore1, false) ∧
    plDelete false exStore4 { session_id := exId, force := false } =
      (exStore4, .error ("Failed to delete session: " ++ exId)) ∧
    save false [] exSession1 "t9" = .error "EIO: write failed" := by
  have h := c10_remove_never_throws
  exact ⟨h.1 true [] "../../etc/passwd" (by decide),
    h.2.1 true [] exId exId (by decide) rfl,
    h.2.2.1 exStore1 exId exSession1 (by decide),
    h.2.2.2.1 exStore4 { session_id := exId, force := false } exSession4
      (by decide) (by decide) (Or.inl (Or.inr (by decide))),
    h.2.2.2.2 [] exSession1 "t9" exId (by decide)⟩

end PlanLoop
